import Mathlib

/-
Verification development for the Tecnosystemi cloud-API client and its
polling coordinator (custom_components/tecnosystemi).

The Python source is shallowly embedded:
  * `AESTool` (api.py lines 79-116): the PKCS7 padding, CBC chaining and
    base64 transport encoding performed by the external `cryptography` and
    `base64` libraries are implemented concretely over byte lists; the AES-256
    block permutation itself (external library code, keyed by the SHA-256 of
    the salt) is abstracted as a pair of functions `E`/`D` on 16-byte blocks
    together with the library's contract `D (E b) = b`.
  * `TecnosystemiAPI` (api.py lines 119-330): the session state
    (token/counter/expiry/user id) is an explicit record threaded through
    `storeToken`, `login` and `calcToken`; Python exceptions are explicit
    `PyErr` values carried next to the post-state; network responses are
    inputs.
  * `TecnosystemiCoordinator` (coordinator.py lines 58-121): the per-device
    fetch/relogin/retry loop and the timeout-retry wrapper are functions of
    an environment script of call outcomes.
  * The lock discipline of api.py is embedded as small step programs over a
    two-thread interleaving semantics with a shared counter and one lock.

Bytes are `Nat` with explicit `< 256` bounds where they matter; time is `Nat`.
-/

/-! ## Cipher layer: bytes, blocks, PKCS7, CBC (api.py lines 79-116) -/

/-- A 128-bit cipher block, as a function from byte position to byte value. -/
def Block : Type := Fin 16 → Nat

/-- Bytewise XOR of two blocks (the CBC chaining operation). -/
def xorB (a b : Block) : Block := fun i => a i ^^^ b i

/-- The all-zero initialization vector of `AESTool.__init__` (api.py line 87). -/
def ivBlock : Block := fun _ => 0

/-- PKCS7 (block size 128 bits) pad length: `cryptography`'s padder appends
`16 - len mod 16` bytes, each equal to that count. -/
def padLen (n : Nat) : Nat := 16 - n % 16

/-- PKCS7 padding as performed in `AESTool.encrypt` (api.py lines 92-93). -/
def pkcs7pad (m : List Nat) : List Nat :=
  m ++ List.replicate (padLen m.length) (padLen m.length)

/-- PKCS7 unpadding as performed in `AESTool.decrypt` (api.py lines 113-114):
the library unpadder demands a block-aligned input whose last byte k lies in
[1,16] and whose last k bytes all equal k; any other shape raises, which is
modelled as `none`. -/
def pkcs7unpad (l : List Nat) : Option (List Nat) :=
  l.getLast?.bind fun k =>
    if 1 ≤ k ∧ k ≤ 16 ∧ k ≤ l.length ∧ l.length % 16 = 0 ∧
        (l.drop (l.length - k)).all (fun b => b = k) then
      some (l.take (l.length - k))
    else none

/-! Splitting a byte list into 16-byte blocks and back. -/

/-- Reads the first 16 bytes of a list as a block (missing bytes read as 0). -/
def toBlock (l : List Nat) : Block := fun i => l.getD i 0

/-- Serializes a block back into its 16 bytes. -/
def fromBlock (b : Block) : List Nat := List.ofFn b

/-- Splits a byte string into consecutive 16-byte blocks (the first
argument is recursion fuel, instantiated with the list length). -/
def toBlocksAux : Nat → List Nat → List Block
  | _, [] => []
  | 0, _ :: _ => []
  | fuel + 1, h :: t => toBlock ((h :: t).take 16) :: toBlocksAux fuel ((h :: t).drop 16)

/-- Splits a byte string into consecutive 16-byte blocks. -/
def toBlocks (l : List Nat) : List Block := toBlocksAux l.length l

/-- Concatenates the bytes of a block sequence. -/
def fromBlocks : List Block → List Nat
  | [] => []
  | b :: bs => fromBlock b ++ fromBlocks bs

/-! CBC mode over an abstract block permutation, as composed by
`AESTool.encrypt` / `AESTool.decrypt` (api.py lines 95-99 and 107-111). -/

/-- CBC encryption: each plaintext block is XORed with the previous
ciphertext block (initially the IV) before the block cipher `E` is applied. -/
def cbcEncrypt (E : Block → Block) (prev : Block) : List Block → List Block
  | [] => []
  | p :: ps =>
      let c := E (xorB p prev)
      c :: cbcEncrypt E c ps

/-- CBC decryption: each ciphertext block is put through `D` and XORed with
the previous ciphertext block (initially the IV). -/
def cbcDecrypt (D : Block → Block) (prev : Block) : List Block → List Block
  | [] => []
  | c :: cs => xorB (D c) prev :: cbcDecrypt D c cs

/-! ## Base64 transport encoding (api.py lines 101 and 105; Python `base64`
library, modelled concretely on well-formed inputs). -/

/-- The standard base64 alphabet. -/
def b64alphabet : List Char :=
  ['A','B','C','D','E','F','G','H','I','J','K','L','M','N','O','P',
   'Q','R','S','T','U','V','W','X','Y','Z',
   'a','b','c','d','e','f','g','h','i','j','k','l','m','n','o','p',
   'q','r','s','t','u','v','w','x','y','z',
   '0','1','2','3','4','5','6','7','8','9','+','/']

/-- Character for a six-bit group. -/
def encChar (i : Nat) : Char := b64alphabet.getD i '?'

/-- Six-bit group for a character, `none` when outside the alphabet. -/
def decChar (c : Char) : Option Nat := b64alphabet.findIdx? (fun a => a = c)

/-- Base64 encoding of a byte list (`base64.b64encode`): groups of three
bytes become four alphabet characters; a tail of one or two bytes is
completed with `=` padding. -/
def b64encode : List Nat → List Char
  | [] => []
  | [a] => [encChar (a / 4), encChar (a % 4 * 16), '=', '=']
  | [a, b] => [encChar (a / 4), encChar (a % 4 * 16 + b / 16), encChar (b % 16 * 4), '=']
  | a :: b :: c :: rest =>
      encChar (a / 4) :: encChar (a % 4 * 16 + b / 16) ::
        encChar (b % 16 * 4 + c / 64) :: encChar (c % 64) :: b64encode rest

/-- Base64 decoding of a character list (`base64.b64decode` restricted to
well-formed base64, i.e. the image of `b64encode`); malformed input, which
makes the library raise, is `none`. -/
def b64decode : List Char → Option (List Nat)
  | [] => some []
  | w :: x :: y :: z :: rest =>
      if z = '=' then
        if rest ≠ [] then none
        else if y = '=' then
          (decChar w).bind fun w1 =>
            (decChar x).map fun x1 => [w1 * 4 + x1 / 16]
        else
          (decChar w).bind fun w1 =>
            (decChar x).bind fun x1 =>
              (decChar y).map fun y1 =>
                [w1 * 4 + x1 / 16, x1 % 16 * 16 + y1 / 4]
      else
        (decChar w).bind fun w1 =>
          (decChar x).bind fun x1 =>
            (decChar y).bind fun y1 =>
              (decChar z).bind fun z1 =>
                (b64decode rest).map fun bs =>
                  (w1 * 4 + x1 / 16) :: (x1 % 16 * 16 + y1 / 4) :: (y1 % 4 * 64 + z1) :: bs
  | _ => none

/-! ## AESTool (api.py lines 79-116)

The AES-256 block permutation of the external `cryptography` library is
abstracted: `E` is the keyed block encryption and `D` the corresponding
decryption, with the library contract `D (E b) = b`.  The key material
itself (SHA-256 of `device_id[0:8] + salt`, api.py lines 84-86 and 140-142)
only selects the pair `(E, D)` and plays no further role in the byte-level
pipeline, so it is not modelled separately. -/

/-- UTF-8 encoding of a plaintext (`plaintext.encode("utf-8")`, api.py
line 93) restricted to ASCII, where it is one byte per character. -/
def asciiEncode (s : List Char) : List Nat := s.map Char.toNat

/-- UTF-8 decoding (`decrypted.decode("utf-8")`, api.py line 116)
restricted to ASCII; multi-byte sequences are not modelled, so any byte
at or above 128 is conservatively a failure. -/
def asciiDecode (l : List Nat) : Option (List Char) :=
  if l.all (fun b => b < 128) then some (l.map Char.ofNat) else none

/-- `AESTool.encrypt` (api.py lines 90-101): PKCS7-pad the UTF-8 bytes,
run AES-CBC with the all-zero IV, then base64-encode the ciphertext. -/
def AESTool.encrypt (E : Block → Block) (plaintext : List Char) : List Char :=
  b64encode (fromBlocks (cbcEncrypt E ivBlock (toBlocks (pkcs7pad (asciiEncode plaintext)))))

/-- `AESTool.decrypt` (api.py lines 103-116): base64-decode, run AES-CBC
decryption with the all-zero IV, strip the PKCS7 padding, decode UTF-8.
`none` models the exceptions the library raises on malformed base64,
padding, or text. -/
def AESTool.decrypt (D : Block → Block) (ciphertext : List Char) : Option (List Char) :=
  (b64decode ciphertext).bind fun encData =>
    (pkcs7unpad (fromBlocks (cbcDecrypt D ivBlock (toBlocks encData)))).bind fun decrypted =>
      asciiDecode decrypted

/-! Byte-range propagation through the pipeline. -/

/-! ## Session layer: TecnosystemiAPI state (api.py lines 119-178, 301-329)

Python exceptions are explicit values: every stateful operation returns its
post-state next to either a result or the exception it raises, so partially
mutated state on an exceptional path is observable. -/

/-- The distinguishable RuntimeError messages raised by api.py. -/
inductive RTErr
  | tokenNotAvailable
  | loginFailedCode (c : Option Int)
  | loginFailedStatus (s : Nat)
  | updateFailedCode (c : Option Int)
  | updateFailedStatus (s : Nat)
  deriving DecidableEq

/-- Python exception classes relevant to the client and coordinator.
`json.JSONDecodeError` and the `int()` / token-format failures are
`valueError` (JSONDecodeError subclasses ValueError). -/
inductive PyErr
  | runtimeError (m : RTErr)
  | valueError
  | typeError
  | timeoutError
  deriving DecidableEq

/-- The mutable session fields of `TecnosystemiAPI.__init__`
(api.py lines 130-133): `self.token`, `self.counter`, `self.token_expiry`,
`self.user_id`. -/
structure Sess where
  token : Option (List Char)
  counter : Int
  expiry : Nat
  userId : Option Int
  deriving DecidableEq

/-- The session as created by `__init__`: unauthenticated, counter 0,
expiry 0. -/
def Sess.init : Sess := ⟨none, 0, 0, none⟩

/-- Python `str.split("_")`: split at every underscore; never empty,
the empty string yields one empty part. -/
def splitU (l : List Char) : List (List Char) :=
  match l with
  | [] => [[]]
  | c :: rest =>
      match splitU rest with
      | [] => [[]]
      | p :: ps => if c = '_' then [] :: p :: ps else (c :: p) :: ps

/-- Decimal digit value of a character, `none` for non-digits. -/
def digitVal (c : Char) : Option Nat :=
  if '0' ≤ c ∧ c ≤ '9' then some (c.toNat - '0'.toNat) else none

/-- Parses a non-empty all-digit string as a natural number. -/
def parseDigits (l : List Char) : Option Nat :=
  match l with
  | [] => none
  | _ => l.foldl (fun acc c => acc.bind fun a => (digitVal c).map fun d => a * 10 + d)
      (some 0)

/-- Python `int(str)` on underscore-free tokens: optional sign followed by
digits; anything else raises ValueError, modelled as `none` (the library
also tolerates surrounding whitespace, which never arises here). -/
def parseInt (l : List Char) : Option Int :=
  match l with
  | '-' :: rest => (parseDigits rest).map fun n => -(n : Int)
  | '+' :: rest => (parseDigits rest).map fun n => (n : Int)
  | _ => (parseDigits l).map fun n => (n : Int)

/-- Decimal rendering of the counter for the f-string
`"{self.token}_{self.counter}"` (api.py line 178). -/
def intToChars (i : Int) : List Char := (toString i).toList

/-- `TecnosystemiAPI.storeToken` (api.py lines 144-159): decrypt the opaque
token, split on underscore; with exactly two parts assign `self.token`,
then parse and assign the counter, then set expiry to now + 3600 (one
hour); any other part count raises ValueError.  Mirroring the source's
statement order, `self.token` is assigned *before* `int(...)` can raise. -/
def storeToken (now : Nat) (D : Block → Block) (s : Sess) (tok : List Char) :
    Sess × Option PyErr :=
  match AESTool.decrypt D tok with
  | none => (s, some PyErr.valueError)
  | some plain =>
      let parts := splitU plain
      if parts.length = 2 then
        let s1 := { s with token := some (parts.getD 0 []) }
        match parseInt (parts.getD 1 []) with
        | some n => ({ s1 with counter := n, expiry := now + 3600 }, none)
        | none => (s1, some PyErr.valueError)
      else (s, some PyErr.valueError)

/-- The login endpoint's response, as far as api.py reads it:
HTTP status, `ResCode`, `ID` and the encrypted `Token` field. -/
structure LoginResp where
  status : Nat
  resCode : Option Int
  ident : Option Int
  tokenField : Option (List Char)

/-- `TecnosystemiAPI.login` (api.py lines 301-329).  The request body (the
password encrypted with the cipher, the device id, the fixed bootstrap
token header) only influences the server's answer, which is the input
`resp` here.  On HTTP 200 with `ResCode` 0 the user id is stored and the
token field is passed to `storeToken`; a non-zero `ResCode` or any other
status raises RuntimeError.  A missing `Token` field would make `decrypt`
raise TypeError. -/
def login (now : Nat) (D : Block → Block) (resp : LoginResp) (s : Sess) :
    Sess × Except PyErr Bool :=
  if resp.status = 200 then
    if resp.resCode ≠ some 0 then
      (s, Except.error (PyErr.runtimeError (RTErr.loginFailedCode resp.resCode)))
    else
      let s0 := { s with userId := resp.ident }
      match resp.tokenField with
      | none => (s0, Except.error PyErr.typeError)
      | some tok =>
          match storeToken now D s0 tok with
          | (s1, none) => (s1, Except.ok true)
          | (s1, some e) => (s1, Except.error e)
  else (s, Except.error (PyErr.runtimeError (RTErr.loginFailedStatus resp.status)))

/-- The non-expired tail of `calcToken` (api.py lines 170-178): re-read
`self.token`; `None` yields `None`, otherwise increment the counter and
encrypt `"{token}_{counter}"`. -/
def calcTokenTail (E : Block → Block) (s1 : Sess) :
    Sess × Except PyErr (Option (List Char)) :=
  match s1.token with
  | none => (s1, Except.ok none)
  | some t =>
      let s2 := { s1 with counter := s1.counter + 1 }
      (s2, Except.ok (some (AESTool.encrypt E (t ++ '_' :: intToChars s2.counter))))

/-- `TecnosystemiAPI.calcToken` (api.py lines 161-178): `None` when no
token is stored; a fresh login first when `now >= token_expiry` — an
exception from that login propagates. -/
def calcToken (now : Nat) (E D : Block → Block) (resp : LoginResp) (s : Sess) :
    Sess × Except PyErr (Option (List Char)) :=
  match s.token with
  | none => (s, Except.ok none)
  | some _ =>
      if s.expiry ≤ now then
        match login now D resp s with
        | (s1, Except.error e) => (s1, Except.error e)
        | (s1, Except.ok _) => calcTokenTail E s1
      else calcTokenTail E s

/-- Iterated token computation: the post-states of successive `calcToken`
calls at the given times. -/
def calcSeq (E D : Block → Block) (resp : LoginResp) (nows : List Nat) (s : Sess) : Sess :=
  match nows with
  | [] => s
  | now :: rest => calcSeq E D resp rest (calcToken now E D resp s).1

/-! ## Transport and client operations (api.py lines 180-299)

Each operation first obtains a per-request token from `calcToken`; that
result (`none` = unavailable) is the `tok` input here.  The HTTP response
is an input: its status and the envelope fields api.py reads from it. -/

/-- A JSON value stored in a command dict (api.py only ever stores strings
and integers). -/
inductive JVal
  | str (v : String)
  | int (v : Int)
  deriving DecidableEq

/-- A Python dict with string keys, by its lookup function. -/
def Dict : Type := String → Option JVal

/-- Python `d[k] = v`. -/
def Dict.set (d : Dict) (k : String) (v : JVal) : Dict :=
  fun q => if q = k then some v else d q

/-- Python `if k not in d: d[k] = v`. -/
def Dict.setIfAbsent (d : Dict) (k : String) (v : JVal) : Dict :=
  match d k with
  | some _ => d
  | none => d.set k v

/-- Command-field merging of `updateCUState` (api.py lines 218-232):
`c` and `pin` are always written; `is_off`, `is_cool`, `cool_mod`, `t_can`
only when absent; `f_inv` and `f_est` are always overwritten with 1. -/
def mergeCUCmd (pin : JVal) (cmd : Dict) : Dict :=
  (((((((cmd.set "c" (JVal.str "upd_cu")).set "pin" pin).setIfAbsent
    "is_off" (JVal.int 0)).setIfAbsent "is_cool" (JVal.int 1)).setIfAbsent
    "cool_mod" (JVal.int 1)).setIfAbsent "t_can" (JVal.int 230)).set
    "f_inv" (JVal.int 1)).set "f_est" (JVal.int 1)

/-- Command-field merging of `updateDeviceState` (api.py lines 265-273):
`id_zona`, `pin` and `c` are always written; `shu_set`, `fan_set`,
`is_crono` only when absent. -/
def mergeZoneCmd (zoneid : Int) (pin : JVal) (cmd : Dict) : Dict :=
  ((((cmd.set "id_zona" (JVal.int zoneid)).set "pin" pin).set
    "c" (JVal.str "upd_zona")).setIfAbsent "shu_set" (JVal.str "0")).setIfAbsent
    "fan_set" (JVal.str "0") |>.setIfAbsent "is_crono" (JVal.int 0)

/-- Shared response handling of both update calls (api.py lines 248-257 and
290-299): HTTP 200 with `ResCode` 0 returns True; HTTP 200 with any other
`ResCode` raises carrying the code; any other status raises carrying the
status. -/
def updResult (status : Nat) (resCode : Option Int) : Except PyErr Bool :=
  if status = 200 then
    if resCode = some 0 then Except.ok true
    else Except.error (PyErr.runtimeError (RTErr.updateFailedCode resCode))
  else Except.error (PyErr.runtimeError (RTErr.updateFailedStatus status))

/-- `TecnosystemiAPI.updateCUState` (api.py lines 212-257): the merged
command it sends, and the call's outcome. -/
def updateCUState (tok : Option (List Char)) (pin : JVal) (cmd : Dict)
    (status : Nat) (resCode : Option Int) : Dict × Except PyErr Bool :=
  match tok with
  | none => (cmd, Except.error (PyErr.runtimeError RTErr.tokenNotAvailable))
  | some _ => (mergeCUCmd pin cmd, updResult status resCode)

/-- `TecnosystemiAPI.updateDeviceState` (api.py lines 259-299): the merged
command it sends, and the call's outcome. -/
def updateDeviceState (tok : Option (List Char)) (pin : JVal) (zoneid : Int)
    (cmd : Dict) (status : Nat) (resCode : Option Int) : Dict × Except PyErr Bool :=
  match tok with
  | none => (cmd, Except.error (PyErr.runtimeError RTErr.tokenNotAvailable))
  | some _ => (mergeZoneCmd zoneid pin cmd, updResult status resCode)

/-- `TecnosystemiAPI.GetPlants` (api.py lines 180-194).  `loads` is the
second-layer `json.loads` applied to the `ResDescr` string embedded in the
envelope (absent `ResDescr` defaults to the string `"[]"`); a parse
failure raises `json.JSONDecodeError`, a ValueError.  `α` stands for the
parsed plant records. -/
def GetPlants (α : Type) (tok : Option (List Char)) (status : Nat)
    (resCode : Option Int) (resDescr : Option String)
    (loads : String → Option (List α)) : Except PyErr (List α) :=
  match tok with
  | none => Except.error (PyErr.runtimeError RTErr.tokenNotAvailable)
  | some _ =>
      if status = 200 ∧ resCode = some 0 then
        match loads (resDescr.getD "[]") with
        | some ps => Except.ok ps
        | none => Except.error PyErr.valueError
      else Except.ok []

/-- `TecnosystemiAPI.getDeviceState` (api.py lines 196-210): HTTP 200
yields the decoded body, any other status yields `None` (absent).  `σ` is
the decoded device-state payload. -/
def getDeviceState (σ : Type) (tok : Option (List Char)) (status : Nat)
    (body : σ) : Except PyErr (Option σ) :=
  match tok with
  | none => Except.error (PyErr.runtimeError RTErr.tokenNotAvailable)
  | some _ => if status = 200 then Except.ok (some body) else Except.ok none

/-! ## Coordinator refresh cycle (coordinator.py lines 58-121) -/

/-- The two kinds of API calls `_async_api_call` makes per device. -/
inductive ApiCall
  | fetchCall
  | loginCall
  deriving DecidableEq

/-- Environment for one device inside `_async_api_call`: the outcome of
the first `getDeviceState`, of the `login` issued if that was absent, and
of the retried `getDeviceState`.  A `timeoutError` outcome models the
overall `asyncio.timeout(30)` expiring at that await point. -/
structure DevEnv (σ : Type) where
  fetch1 : Except PyErr (Option σ)
  relogin : Except PyErr Bool
  fetch2 : Except PyErr (Option σ)

/-- Per-device body of `_async_api_call` (coordinator.py lines 68-96),
with the trace of API calls it issues.  When the retried fetch is still
absent, line 81 (`state["Device"] = device` with `state = None`) raises
TypeError. -/
def processDevice {σ : Type} (e : DevEnv σ) : Except PyErr σ × List ApiCall :=
  match e.fetch1 with
  | Except.error err => (Except.error err, [ApiCall.fetchCall])
  | Except.ok (some st) => (Except.ok st, [ApiCall.fetchCall])
  | Except.ok none =>
      match e.relogin with
      | Except.error err => (Except.error err, [ApiCall.fetchCall, ApiCall.loginCall])
      | Except.ok _ =>
          match e.fetch2 with
          | Except.error err =>
              (Except.error err, [ApiCall.fetchCall, ApiCall.loginCall, ApiCall.fetchCall])
          | Except.ok (some st) =>
              (Except.ok st, [ApiCall.fetchCall, ApiCall.loginCall, ApiCall.fetchCall])
          | Except.ok none =>
              (Except.error PyErr.typeError,
                [ApiCall.fetchCall, ApiCall.loginCall, ApiCall.fetchCall])

/-- `_async_api_call` over the device list: collects each device's state,
stopping at the first exception. -/
def apiCallRun {σ : Type} (devs : List (DevEnv σ)) : Except PyErr (List σ) :=
  match devs with
  | [] => Except.ok []
  | e :: rest =>
      match (processDevice e).1 with
      | Except.error err => Except.error err
      | Except.ok st => (apiCallRun rest).map fun l => st :: l

/-- What escapes `_async_update_data`: either the normalized `UpdateFailed`
(wrapping the RuntimeError message) or an exception class the function
does not catch. -/
inductive CycleErr
  | updateFailed (m : RTErr)
  | uncaught (e : PyErr)
  deriving DecidableEq

/-- `_async_update_data` (coordinator.py lines 100-121) with the number of
`_async_api_call` attempts it makes.  `env n` is the outcome of attempt
`n`.  A first TimeoutError triggers exactly one unguarded retry; the outer
`except RuntimeError` normalizes RuntimeError from either attempt to
`UpdateFailed`; everything else (a second TimeoutError, TypeError,
ValueError) escapes as-is. -/
def updateDataRun {σ : Type} (env : Nat → Except PyErr σ) : Except CycleErr σ × Nat :=
  match env 0 with
  | Except.ok d => (Except.ok d, 1)
  | Except.error PyErr.timeoutError =>
      (match env 1 with
       | Except.ok d => Except.ok d
       | Except.error (PyErr.runtimeError m) => Except.error (CycleErr.updateFailed m)
       | Except.error e => Except.error (CycleErr.uncaught e), 2)
  | Except.error (PyErr.runtimeError m) => (Except.error (CycleErr.updateFailed m), 1)
  | Except.error e => (Except.error (CycleErr.uncaught e), 1)

/-- Modelled from the spec: the Home Assistant `DataUpdateCoordinator`
base class (not part of this repository's src/) atomically replaces the
published snapshot with the value `_async_update_data` returns and, when
it raises instead, keeps serving the previous snapshot. -/
def publish {σ : Type} (prev : σ) (r : Except CycleErr σ) : σ :=
  match r with
  | Except.ok d => d
  | Except.error _ => prev

/-! ## Lock discipline (api.py lines 136-138, 180-210, 212-299, 301-329)

Two concurrent tasks running api.py operations are embedded as straight-line
programs of atomic actions over a shared counter and the single
`api_lock`: `calcTok` is the `calcToken` call (it increments the shared
counter and snapshots it as this request's token), `acquire`/`release`
delimit `async with self.api_lock`, and `http` is the request/response
exchange, appending (thread, token used) to a transport log. -/

/-- Atomic actions of an api.py operation. -/
inductive Act
  | calcTok
  | acquire
  | http
  | release
  deriving DecidableEq

/-- `getDeviceState` (api.py lines 196-210): the token is computed *before*
the lock is acquired; only the HTTP exchange is inside the lock. -/
def getDeviceStateProg : List Act := [Act.calcTok, Act.acquire, Act.http, Act.release]

/-- `updateCUState` (api.py lines 212-257): same shape. -/
def updateCUStateProg : List Act := [Act.calcTok, Act.acquire, Act.http, Act.release]

/-- `updateDeviceState` (api.py lines 259-299): same shape. -/
def updateDeviceStateProg : List Act := [Act.calcTok, Act.acquire, Act.http, Act.release]

/-- `GetPlants` (api.py lines 180-194): computes a token and performs its
HTTP exchange without ever touching `api_lock`. -/
def GetPlantsProg : List Act := [Act.calcTok, Act.http]

/-- `login` (api.py lines 301-329): no rotating token; the HTTP exchange is
inside the lock. -/
def loginProg : List Act := [Act.acquire, Act.http, Act.release]

/-- Interleaving state of two threads A (false) and B (true). -/
structure CState where
  counter : Nat
  lock : Option Bool
  progA : List Act
  progB : List Act
  tokA : Nat
  tokB : Nat
  log : List (Bool × Nat)
  deriving DecidableEq

/-- One scheduler step: thread `tid` executes its next action if enabled
(an `acquire` against a held lock blocks, leaving the state unchanged). -/
def step (s : CState) (tid : Bool) : CState :=
  if tid then
    match s.progB with
    | [] => s
    | Act.calcTok :: rest =>
        { s with counter := s.counter + 1, tokB := s.counter + 1, progB := rest }
    | Act.acquire :: rest =>
        match s.lock with
        | none => { s with lock := some true, progB := rest }
        | some _ => s
    | Act.http :: rest => { s with log := s.log ++ [(true, s.tokB)], progB := rest }
    | Act.release :: rest => { s with lock := none, progB := rest }
  else
    match s.progA with
    | [] => s
    | Act.calcTok :: rest =>
        { s with counter := s.counter + 1, tokA := s.counter + 1, progA := rest }
    | Act.acquire :: rest =>
        match s.lock with
        | none => { s with lock := some false, progA := rest }
        | some _ => s
    | Act.http :: rest => { s with log := s.log ++ [(false, s.tokA)], progA := rest }
    | Act.release :: rest => { s with lock := none, progA := rest }

/-- Runs a schedule (list of thread choices). -/
def runSched (sched : List Bool) (s : CState) : CState :=
  sched.foldl step s

/-- Both threads about to run `getDeviceState` on a fresh session counter. -/
def initTwoFetch : CState :=
  ⟨0, none, getDeviceStateProg, getDeviceStateProg, 0, 0, []⟩

/-! ## Concrete inputs used by the claim theorems -/

/-- An authenticated session whose stored expiry (10) has passed. -/
def c1Sess : Sess := ⟨some ['T'], 0, 10, none⟩

/-- A login response failing with HTTP 500. -/
def c1Resp : LoginResp := ⟨500, none, none, none⟩

/-- A device whose state fetch is absent both before and after the
re-login (which itself succeeds). -/
def c2Dev : DevEnv Nat := ⟨Except.ok none, Except.ok true, Except.ok none⟩

/-- A cycle environment in which every `_async_api_call` attempt times out. -/
def c3Env : Nat → Except PyErr Nat := fun _ => Except.error PyErr.timeoutError

/-- Schedule: A computes its token, then B computes its token and completes
its locked HTTP exchange, then A completes its own. -/
def c9Sched : List Bool := [false, true, true, true, true, false, false, false]

/-- A thread whose remaining program sits strictly between `acquire` and
`release` of `getDeviceStateProg` is inside the locked HTTP section. -/
def inCS (prog : List Act) : Prop :=
  prog = [Act.http, Act.release] ∨ prog = [Act.release]

/-- Invariant for two threads running `getDeviceStateProg`: each remaining
program is a suffix of it, and a thread inside the locked section holds the
lock. -/
def LockInv (s : CState) : Prop :=
  (s.progA = getDeviceStateProg ∨ s.progA = [Act.acquire, Act.http, Act.release] ∨
    s.progA = [Act.http, Act.release] ∨ s.progA = [Act.release] ∨ s.progA = []) ∧
  (s.progB = getDeviceStateProg ∨ s.progB = [Act.acquire, Act.http, Act.release] ∨
    s.progB = [Act.http, Act.release] ∨ s.progB = [Act.release] ∨ s.progB = []) ∧
  (inCS s.progA → s.lock = some false) ∧
  (inCS s.progB → s.lock = some true)

/-! ## Helper lemmas for the session and transport layers -/

/-! ## Claims -/

/-! ## Theorems -/

theorem padLen_pos (n : Nat) : 1 ≤ padLen n := by
  unfold padLen; omega

theorem padLen_le (n : Nat) : padLen n ≤ 16 := by
  unfold padLen; omega

theorem pkcs7pad_length_mod (m : List Nat) : (pkcs7pad m).length % 16 = 0 := by
  simp [pkcs7pad, padLen]
  omega

theorem getLast?_replicate_succ (k : Nat) (a : Nat) :
    (List.replicate (k + 1) a).getLast? = some a := by
  induction k with
  | zero => rfl
  | succ n ih =>
      rw [List.replicate_succ, List.replicate_succ, List.getLast?_cons_cons,
        ← List.replicate_succ]
      exact ih

theorem all_replicate (k a : Nat) :
    (List.replicate k a).all (fun b => b = a) = true := by
  induction k with
  | zero => rfl
  | succ n ih => simp [List.replicate_succ, ih]

/-- Round trip of the PKCS7 layer: unpadding a padded message restores it. -/
theorem pkcs7unpad_pad (m : List Nat) : pkcs7unpad (pkcs7pad m) = some m := by
  have hpos := padLen_pos m.length
  have hle := padLen_le m.length
  have hmod := pkcs7pad_length_mod m
  have hlen : (pkcs7pad m).length = m.length + padLen m.length := by
    simp [pkcs7pad]
  have hlast : (pkcs7pad m).getLast? = some (padLen m.length) := by
    obtain ⟨k, hk⟩ : ∃ k, padLen m.length = k + 1 := ⟨padLen m.length - 1, by omega⟩
    unfold pkcs7pad
    rw [List.getLast?_append, hk, getLast?_replicate_succ]
    rfl
  have hsub : (pkcs7pad m).length - padLen m.length = m.length := by omega
  unfold pkcs7unpad
  rw [hlast, Option.some_bind, if_pos, hsub]
  · show some ((m ++ _).take m.length) = some m
    rw [List.take_left]
  · refine ⟨hpos, hle, by omega, hmod, ?_⟩
    rw [hsub]
    unfold pkcs7pad
    rw [List.drop_left]
    exact all_replicate _ _

theorem toBlocksAux_fuel (f1 : Nat) : ∀ (f2 : Nat) (l : List Nat),
    l.length ≤ f1 → l.length ≤ f2 → toBlocksAux f1 l = toBlocksAux f2 l := by
  induction f1 with
  | zero =>
      intro f2 l h1 h2
      cases l with
      | nil => cases f2 <;> rfl
      | cons h t => simp at h1
  | succ n ih =>
      intro f2 l h1 h2
      cases l with
      | nil => cases f2 <;> rfl
      | cons a t =>
          cases f2 with
          | zero => simp at h2
          | succ m =>
              simp only [toBlocksAux]
              congr 1
              apply ih
              · simp at h1 ⊢; omega
              · simp at h2 ⊢; omega

theorem toBlocks_cons (l : List Nat) (h : l ≠ []) :
    toBlocks l = toBlock (l.take 16) :: toBlocks (l.drop 16) := by
  cases l with
  | nil => exact absurd rfl h
  | cons a t =>
      show toBlocksAux (t.length + 1) (a :: t) = _
      simp only [toBlocksAux]
      congr 1
      apply toBlocksAux_fuel
      · simp
      · exact Nat.le_refl _

theorem fromBlock_length (b : Block) : (fromBlock b).length = 16 := by
  simp [fromBlock]

theorem toBlock_fromBlock (b : Block) : toBlock (fromBlock b) = b := by
  funext i
  simp only [toBlock, fromBlock]
  rw [List.getD_eq_getElem _ _ (by simp [i.isLt]), List.getElem_ofFn]

theorem fromBlock_toBlock (l : List Nat) (h : l.length = 16) :
    fromBlock (toBlock l) = l := by
  apply List.ext_getElem
  · simp [fromBlock, h]
  · intro i h1 h2
    simp only [fromBlock, List.getElem_ofFn, toBlock]
    rw [List.getD_eq_getElem _ _ (by omega)]

theorem toBlocks_fromBlocks (bl : List Block) : toBlocks (fromBlocks bl) = bl := by
  induction bl with
  | nil => rfl
  | cons b bs ih =>
      have hne : fromBlock b ++ fromBlocks bs ≠ [] := by
        intro hcontra
        have := congrArg List.length hcontra
        simp [fromBlock_length] at this
      rw [fromBlocks, toBlocks_cons _ hne]
      rw [List.take_left' (fromBlock_length b), List.drop_left' (fromBlock_length b),
        toBlock_fromBlock, ih]

theorem fromBlocks_toBlocks (l : List Nat) (h : l.length % 16 = 0) :
    fromBlocks (toBlocks l) = l := by
  suffices H : ∀ n l, List.length l = n → List.length l % 16 = 0 →
      fromBlocks (toBlocks l) = l from H l.length l rfl h
  intro n
  induction n using Nat.strong_induction_on with
  | _ n ih =>
    intro l hl hmod
    by_cases h0 : l = []
    · subst h0; rfl
    · have hpos : 0 < l.length := List.length_pos.mpr h0
      have h16 : 16 ≤ l.length := by omega
      rw [toBlocks_cons _ h0, fromBlocks]
      have htake : (l.take 16).length = 16 := by
        rw [List.length_take]; omega
      rw [fromBlock_toBlock _ htake]
      have hdrop : fromBlocks (toBlocks (l.drop 16)) = l.drop 16 := by
        apply ih (l.drop 16).length _ _ rfl
        · rw [List.length_drop]; omega
        · rw [List.length_drop]; omega
      rw [hdrop, List.take_append_drop]

theorem xorB_cancel (p prev : Block) : xorB (xorB p prev) prev = p := by
  funext i
  simp [xorB, Nat.xor_assoc, Nat.xor_self, Nat.xor_zero]

theorem cbcDecrypt_cbcEncrypt (E D : Block → Block) (hED : ∀ b, D (E b) = b)
    (ps : List Block) : ∀ prev, cbcDecrypt D prev (cbcEncrypt E prev ps) = ps := by
  induction ps with
  | nil => intro prev; rfl
  | cons p ps ih =>
      intro prev
      rw [cbcEncrypt, cbcDecrypt, hED, xorB_cancel, ih]

theorem decChar_encChar : ∀ i : Fin 64, decChar (encChar i.val) = some i.val := by
  decide

theorem encChar_ne_eq : ∀ i : Fin 64, encChar i.val ≠ '=' := by
  decide

theorem decChar_encChar' (i : Nat) (h : i < 64) : decChar (encChar i) = some i :=
  decChar_encChar ⟨i, h⟩

theorem encChar_ne_eq' (i : Nat) (h : i < 64) : encChar i ≠ '=' :=
  encChar_ne_eq ⟨i, h⟩

/-- Round trip of the base64 layer on byte-valued lists. -/
theorem b64decode_encode (l : List Nat) (h : ∀ b ∈ l, b < 256) :
    b64decode (b64encode l) = some l := by
  induction l using b64encode.induct with
  | case1 => rfl
  | case2 a =>
      have ha : a < 256 := h a (by simp)
      rw [b64encode, b64decode]
      rw [if_pos rfl, if_neg (by simp), if_pos rfl]
      rw [decChar_encChar' (a / 4) (by omega), decChar_encChar' (a % 4 * 16) (by omega)]
      simp only [Option.some_bind, Option.map_some', Option.some.injEq,
        List.cons.injEq, and_true]
      omega
  | case3 a b =>
      have ha : a < 256 := h a (by simp)
      have hb : b < 256 := h b (by simp)
      rw [b64encode, b64decode]
      rw [if_pos rfl, if_neg (by simp), if_neg (encChar_ne_eq' (b % 16 * 4) (by omega))]
      rw [decChar_encChar' (a / 4) (by omega),
        decChar_encChar' (a % 4 * 16 + b / 16) (by omega),
        decChar_encChar' (b % 16 * 4) (by omega)]
      simp only [Option.some_bind, Option.map_some', Option.some.injEq,
        List.cons.injEq, and_true]
      omega
  | case4 a b c rest ih =>
      have ha : a < 256 := h a (by simp)
      have hb : b < 256 := h b (by simp)
      have hc : c < 256 := h c (by simp)
      have hrest : ∀ x ∈ rest, x < 256 := fun x hx => h x (by simp [hx])
      rw [b64encode, b64decode]
      rw [if_neg (encChar_ne_eq' (c % 64) (by omega))]
      rw [decChar_encChar' (a / 4) (by omega),
        decChar_encChar' (a % 4 * 16 + b / 16) (by omega),
        decChar_encChar' (b % 16 * 4 + c / 64) (by omega),
        decChar_encChar' (c % 64) (by omega),
        ih hrest]
      simp only [Option.some_bind, Option.map_some', Option.some.injEq,
        List.cons.injEq, and_self, and_true]
      omega

theorem pkcs7pad_bytes (m : List Nat) (h : ∀ b ∈ m, b < 256) :
    ∀ b ∈ pkcs7pad m, b < 256 := by
  intro b hb
  unfold pkcs7pad at hb
  rcases List.mem_append.mp hb with hm | hr
  · exact h b hm
  · have := List.eq_of_mem_replicate hr
    have := padLen_le m.length
    omega

theorem toBlock_lt (l : List Nat) (h : ∀ b ∈ l, b < 256) (i : Fin 16) :
    toBlock l i < 256 := by
  unfold toBlock
  rcases Nat.lt_or_ge i.val l.length with hlt | hge
  · rw [List.getD_eq_getElem _ _ hlt]
    exact h _ (List.getElem_mem hlt)
  · rw [List.getD_eq_default _ _ hge]
    omega

theorem toBlocks_bytes (l : List Nat) (h : ∀ b ∈ l, b < 256) :
    ∀ blk ∈ toBlocks l, ∀ i, blk i < 256 := by
  suffices H : ∀ n l, List.length l = n → (∀ b ∈ l, b < 256) →
      ∀ blk ∈ toBlocks l, ∀ i, blk i < 256 from H l.length l rfl h
  intro n
  induction n using Nat.strong_induction_on with
  | _ n ih =>
    intro l hl hlt blk hblk i
    by_cases h0 : l = []
    · subst h0; simp [toBlocks, toBlocksAux] at hblk
    · rw [toBlocks_cons _ h0] at hblk
      rcases List.mem_cons.mp hblk with heq | htail
      · subst heq
        exact toBlock_lt _ (fun b hb => hlt b (List.take_subset 16 l hb)) i
      · have hpos : 0 < l.length := List.length_pos.mpr h0
        exact ih (l.drop 16).length (by rw [List.length_drop]; omega) (l.drop 16) rfl
          (fun b hb => hlt b (List.drop_subset 16 l hb)) blk htail i

theorem xorB_lt (a b : Block) (ha : ∀ i, a i < 256) (hb : ∀ i, b i < 256) :
    ∀ i, xorB a b i < 256 := by
  intro i
  have : (256 : Nat) = 2 ^ 8 := by norm_num
  rw [this] at ha hb ⊢
  exact Nat.xor_lt_two_pow (ha i) (hb i)

theorem ivBlock_lt : ∀ i, ivBlock i < 256 := by
  intro i; simp [ivBlock]

theorem cbcEncrypt_bytes (E : Block → Block)
    (hE : ∀ b, (∀ i, b i < 256) → ∀ i, E b i < 256) (ps : List Block)
    (hps : ∀ p ∈ ps, ∀ i, p i < 256) :
    ∀ prev, (∀ i, prev i < 256) →
      ∀ c ∈ cbcEncrypt E prev ps, ∀ i, c i < 256 := by
  induction ps with
  | nil => intro prev _ c hc; rw [cbcEncrypt] at hc; simp at hc
  | cons p ps ih =>
      intro prev hprev c hc
      rw [cbcEncrypt] at hc
      have hhead : ∀ i, E (xorB p prev) i < 256 :=
        hE _ (xorB_lt _ _ (hps p (by simp)) hprev)
      rcases List.mem_cons.mp hc with heq | htail
      · subst heq; exact hhead
      · exact ih (fun q hq => hps q (by simp [hq])) _ hhead c htail

theorem fromBlocks_bytes (bl : List Block) (h : ∀ blk ∈ bl, ∀ i, blk i < 256) :
    ∀ b ∈ fromBlocks bl, b < 256 := by
  induction bl with
  | nil => intro b hb; simp [fromBlocks] at hb
  | cons blk bs ih =>
      intro b hb
      rw [fromBlocks] at hb
      rcases List.mem_append.mp hb with hm | hr
      · have hrange : b ∈ Set.range blk := (List.mem_ofFn _ _).mp hm
        obtain ⟨i, hi⟩ := hrange
        rw [← hi]
        exact h blk (by simp) i
      · exact ih (fun q hq i => h q (by simp [hq]) i) b hr

/-- Cipher round trip (spec section 8, first property): decrypting an
encryption restores any ASCII plaintext, for any keyed block permutation
`E` with inverse `D` that maps byte-valued blocks to byte-valued blocks. -/
theorem AESTool.decrypt_encrypt (E D : Block → Block) (hED : ∀ b, D (E b) = b)
    (hE : ∀ b, (∀ i, b i < 256) → ∀ i, E b i < 256)
    (s : List Char) (hs : ∀ c ∈ s, c.toNat < 128) :
    AESTool.decrypt D (AESTool.encrypt E s) = some s := by
  have hbytes : ∀ b ∈ asciiEncode s, b < 256 := by
    intro b hb
    obtain ⟨c, hc, hcb⟩ := List.mem_map.mp hb
    have := hs c hc
    omega
  have hpad : ∀ b ∈ pkcs7pad (asciiEncode s), b < 256 := pkcs7pad_bytes _ hbytes
  have hblocks : ∀ blk ∈ toBlocks (pkcs7pad (asciiEncode s)), ∀ i, blk i < 256 :=
    toBlocks_bytes _ hpad
  have hct : ∀ blk ∈ cbcEncrypt E ivBlock (toBlocks (pkcs7pad (asciiEncode s))),
      ∀ i, blk i < 256 :=
    cbcEncrypt_bytes E hE _ hblocks ivBlock ivBlock_lt
  have hctBytes : ∀ b ∈ fromBlocks (cbcEncrypt E ivBlock
      (toBlocks (pkcs7pad (asciiEncode s)))), b < 256 :=
    fromBlocks_bytes _ hct
  unfold AESTool.encrypt AESTool.decrypt
  rw [b64decode_encode _ hctBytes, Option.some_bind, toBlocks_fromBlocks,
    cbcDecrypt_cbcEncrypt E D hED, fromBlocks_toBlocks _ (pkcs7pad_length_mod _),
    pkcs7unpad_pad, Option.some_bind]
  unfold asciiDecode
  rw [if_pos]
  · unfold asciiEncode
    rw [List.map_map]
    congr 1
    have : ∀ c ∈ s, (Char.ofNat ∘ Char.toNat) c = id c := by
      intro c hc
      simp [Char.ofNat_toNat]
    rw [List.map_congr_left this, List.map_id]
  · rw [List.all_eq_true]
    intro b hb
    obtain ⟨c, hc, hcb⟩ := List.mem_map.mp hb
    simp only [decide_eq_true_eq]
    rw [← hcb]
    exact hs c hc

theorem LockInv_step (s : CState) (tid : Bool) (h : LockInv s) : LockInv (step s tid) := by
  obtain ⟨hA, hB, hLA, hLB⟩ := h
  cases tid with
  | false =>
      rcases hA with h1 | h1 | h1 | h1 | h1
      · have hs : step s false =
            { s with
                counter := s.counter + 1,
                tokA := s.counter + 1,
                progA := [Act.acquire, Act.http, Act.release] } := by
          simp [step, h1, getDeviceStateProg]
        rw [hs]
        exact ⟨Or.inr (Or.inl rfl), hB, by intro hc; simp [inCS] at hc,
          fun hc => hLB hc⟩
      · cases hl : s.lock with
        | none =>
            have hs : step s false =
                { s with
                    lock := some false,
                    progA := [Act.http, Act.release] } := by
              simp [step, h1, hl]
            rw [hs]
            refine ⟨Or.inr (Or.inr (Or.inl rfl)), hB, fun _ => rfl, fun hc => ?_⟩
            have := hLB hc
            rw [hl] at this
            exact absurd this (by simp)
        | some x =>
            have hs : step s false = s := by simp [step, h1, hl]
            rw [hs]
            exact ⟨Or.inr (Or.inl h1), hB, hLA, hLB⟩
      · have hlock := hLA (Or.inl h1)
        have hs : step s false =
            { s with
                log := s.log ++ [(false, s.tokA)],
                progA := [Act.release] } := by
          simp [step, h1]
        rw [hs]
        refine ⟨Or.inr (Or.inr (Or.inr (Or.inl rfl))), hB, fun _ => hlock, fun hc => ?_⟩
        have := hLB hc
        rw [hlock] at this
        exact absurd this (by simp)
      · have hlock := hLA (Or.inr h1)
        have hs : step s false = { s with lock := none, progA := [] } := by
          simp [step, h1]
        rw [hs]
        refine ⟨Or.inr (Or.inr (Or.inr (Or.inr rfl))), hB, fun hc => ?_, fun hc => ?_⟩
        · simp [inCS] at hc
        · have := hLB hc
          rw [hlock] at this
          exact absurd this (by simp)
      · have hs : step s false = s := by simp [step, h1]
        rw [hs]
        exact ⟨Or.inr (Or.inr (Or.inr (Or.inr h1))), hB, hLA, hLB⟩
  | true =>
      rcases hB with h1 | h1 | h1 | h1 | h1
      · have hs : step s true =
            { s with
                counter := s.counter + 1,
                tokB := s.counter + 1,
                progB := [Act.acquire, Act.http, Act.release] } := by
          simp [step, h1, getDeviceStateProg]
        rw [hs]
        exact ⟨hA, Or.inr (Or.inl rfl), fun hc => hLA hc, by intro hc; simp [inCS] at hc⟩
      · cases hl : s.lock with
        | none =>
            have hs : step s true =
                { s with
                    lock := some true,
                    progB := [Act.http, Act.release] } := by
              simp [step, h1, hl]
            rw [hs]
            refine ⟨hA, Or.inr (Or.inr (Or.inl rfl)), fun hc => ?_, fun _ => rfl⟩
            have := hLA hc
            rw [hl] at this
            exact absurd this (by simp)
        | some x =>
            have hs : step s true = s := by simp [step, h1, hl]
            rw [hs]
            exact ⟨hA, Or.inr (Or.inl h1), hLA, hLB⟩
      · have hlock := hLB (Or.inl h1)
        have hs : step s true =
            { s with
                log := s.log ++ [(true, s.tokB)],
                progB := [Act.release] } := by
          simp [step, h1]
        rw [hs]
        refine ⟨hA, Or.inr (Or.inr (Or.inr (Or.inl rfl))), fun hc => ?_, fun _ => hlock⟩
        have := hLA hc
        rw [hlock] at this
        exact absurd this (by simp)
      · have hlock := hLB (Or.inr h1)
        have hs : step s true = { s with lock := none, progB := [] } := by
          simp [step, h1]
        rw [hs]
        refine ⟨hA, Or.inr (Or.inr (Or.inr (Or.inr rfl))), fun hc => ?_, fun hc => ?_⟩
        · have := hLA hc
          rw [hlock] at this
          exact absurd this (by simp)
        · simp [inCS] at hc
      · have hs : step s true = s := by simp [step, h1]
        rw [hs]
        exact ⟨hA, Or.inr (Or.inr (Or.inr (Or.inr h1))), hLA, hLB⟩

theorem LockInv_runSched (sched : List Bool) : ∀ s : CState, LockInv s →
    LockInv (runSched sched s) := by
  induction sched with
  | nil => intro s h; exact h
  | cons t ts ih => intro s h; exact ih _ (LockInv_step s t h)

theorem LockInv_init : LockInv initTwoFetch := by
  refine ⟨Or.inl rfl, Or.inl rfl, fun hc => ?_, fun hc => ?_⟩ <;>
    simp [inCS, initTwoFetch, getDeviceStateProg] at hc

theorem calcToken_fresh (now : Nat) (E D : Block → Block) (resp : LoginResp)
    (s : Sess) (t : List Char) (ht : s.token = some t) (hn : now < s.expiry) :
    calcToken now E D resp s =
      ({ s with counter := s.counter + 1 },
        Except.ok (some (AESTool.encrypt E (t ++ '_' :: intToChars (s.counter + 1))))) := by
  have hnotle : ¬(s.expiry ≤ now) := by omega
  simp [calcToken, calcTokenTail, ht, hnotle]

theorem calcSeq_fresh (E D : Block → Block) (resp : LoginResp) (nows : List Nat) :
    ∀ (s : Sess) (t : List Char), s.token = some t → (∀ now ∈ nows, now < s.expiry) →
      (calcSeq E D resp nows s).token = some t ∧
      (calcSeq E D resp nows s).expiry = s.expiry ∧
      (calcSeq E D resp nows s).counter = s.counter + (nows.length : Int) := by
  induction nows with
  | nil =>
      intro s t ht _
      refine ⟨ht, rfl, by simp [calcSeq]⟩
  | cons now rest ih =>
      intro s t ht hfresh
      rw [calcSeq, calcToken_fresh now E D resp s t ht (hfresh now (by simp))]
      obtain ⟨h1, h2, h3⟩ := ih { s with counter := s.counter + 1 } t ht
        (fun x hx => hfresh x (by simp [hx]))
      exact ⟨h1, h2, h3.trans (by simp only [List.length_cons]; push_cast; ring)⟩

theorem Dict.set_same (d : Dict) (k : String) (v : JVal) : d.set k v k = some v := by
  simp [Dict.set]

theorem Dict.set_other (d : Dict) (k : String) (v : JVal) (q : String) (h : q ≠ k) :
    d.set k v q = d q := by
  simp [Dict.set, h]

theorem Dict.setIfAbsent_same (d : Dict) (k : String) (v : JVal) :
    d.setIfAbsent k v k = some ((d k).getD v) := by
  unfold Dict.setIfAbsent
  cases h : d k <;> simp [h, Dict.set_same]

theorem Dict.setIfAbsent_other (d : Dict) (k : String) (v : JVal) (q : String) (h : q ≠ k) :
    d.setIfAbsent k v q = d q := by
  unfold Dict.setIfAbsent
  cases hd : d k <;> simp [Dict.set_other _ _ _ _ h]

theorem mergeCUCmd_is_off (pin : JVal) (cmd : Dict) :
    mergeCUCmd pin cmd "is_off" = some ((cmd "is_off").getD (JVal.int 0)) := by
  unfold mergeCUCmd
  rw [Dict.set_other _ _ _ _ (by decide), Dict.set_other _ _ _ _ (by decide),
    Dict.setIfAbsent_other _ _ _ _ (by decide), Dict.setIfAbsent_other _ _ _ _ (by decide),
    Dict.setIfAbsent_other _ _ _ _ (by decide), Dict.setIfAbsent_same,
    Dict.set_other _ _ _ _ (by decide), Dict.set_other _ _ _ _ (by decide)]

theorem mergeCUCmd_is_cool (pin : JVal) (cmd : Dict) :
    mergeCUCmd pin cmd "is_cool" = some ((cmd "is_cool").getD (JVal.int 1)) := by
  unfold mergeCUCmd
  rw [Dict.set_other _ _ _ _ (by decide), Dict.set_other _ _ _ _ (by decide),
    Dict.setIfAbsent_other _ _ _ _ (by decide), Dict.setIfAbsent_other _ _ _ _ (by decide),
    Dict.setIfAbsent_same, Dict.setIfAbsent_other _ _ _ _ (by decide),
    Dict.set_other _ _ _ _ (by decide), Dict.set_other _ _ _ _ (by decide)]

theorem mergeCUCmd_cool_mod (pin : JVal) (cmd : Dict) :
    mergeCUCmd pin cmd "cool_mod" = some ((cmd "cool_mod").getD (JVal.int 1)) := by
  unfold mergeCUCmd
  rw [Dict.set_other _ _ _ _ (by decide), Dict.set_other _ _ _ _ (by decide),
    Dict.setIfAbsent_other _ _ _ _ (by decide), Dict.setIfAbsent_same,
    Dict.setIfAbsent_other _ _ _ _ (by decide), Dict.setIfAbsent_other _ _ _ _ (by decide),
    Dict.set_other _ _ _ _ (by decide), Dict.set_other _ _ _ _ (by decide)]

theorem mergeCUCmd_t_can (pin : JVal) (cmd : Dict) :
    mergeCUCmd pin cmd "t_can" = some ((cmd "t_can").getD (JVal.int 230)) := by
  unfold mergeCUCmd
  rw [Dict.set_other _ _ _ _ (by decide), Dict.set_other _ _ _ _ (by decide),
    Dict.setIfAbsent_same, Dict.setIfAbsent_other _ _ _ _ (by decide),
    Dict.setIfAbsent_other _ _ _ _ (by decide), Dict.setIfAbsent_other _ _ _ _ (by decide),
    Dict.set_other _ _ _ _ (by decide), Dict.set_other _ _ _ _ (by decide)]

theorem mergeZoneCmd_shu_set (zoneid : Int) (pin : JVal) (cmd : Dict) :
    mergeZoneCmd zoneid pin cmd "shu_set" = some ((cmd "shu_set").getD (JVal.str "0")) := by
  unfold mergeZoneCmd
  rw [Dict.setIfAbsent_other _ _ _ _ (by decide), Dict.setIfAbsent_other _ _ _ _ (by decide),
    Dict.setIfAbsent_same, Dict.set_other _ _ _ _ (by decide),
    Dict.set_other _ _ _ _ (by decide), Dict.set_other _ _ _ _ (by decide)]

theorem mergeZoneCmd_fan_set (zoneid : Int) (pin : JVal) (cmd : Dict) :
    mergeZoneCmd zoneid pin cmd "fan_set" = some ((cmd "fan_set").getD (JVal.str "0")) := by
  unfold mergeZoneCmd
  rw [Dict.setIfAbsent_other _ _ _ _ (by decide), Dict.setIfAbsent_same,
    Dict.setIfAbsent_other _ _ _ _ (by decide), Dict.set_other _ _ _ _ (by decide),
    Dict.set_other _ _ _ _ (by decide), Dict.set_other _ _ _ _ (by decide)]

theorem mergeZoneCmd_is_crono (zoneid : Int) (pin : JVal) (cmd : Dict) :
    mergeZoneCmd zoneid pin cmd "is_crono" = some ((cmd "is_crono").getD (JVal.int 0)) := by
  unfold mergeZoneCmd
  rw [Dict.setIfAbsent_same, Dict.setIfAbsent_other _ _ _ _ (by decide),
    Dict.setIfAbsent_other _ _ _ _ (by decide), Dict.set_other _ _ _ _ (by decide),
    Dict.set_other _ _ _ _ (by decide), Dict.set_other _ _ _ _ (by decide)]

/-- C1 (code bug): with no stored base token, `calcToken` returns `None`
(unavailable); but at an expired session whose forced re-login fails (HTTP
500 here), `calcToken` propagates the login RuntimeError instead of
returning `None`: since `login` raises on every failure path, the guarded
`return None` after `await self.login()` (api.py lines 170-173) is
unreachable, contradicting the comment right above it and the spec. -/
theorem c1_expired_failed_login_raises :
    calcToken 10 id id c1Resp { c1Sess with token := none } =
      ({ c1Sess with token := none }, Except.ok none) ∧
    calcToken 10 id id c1Resp c1Sess =
      (c1Sess, Except.error (PyErr.runtimeError (RTErr.loginFailedStatus 500))) :=
  ⟨rfl, rfl⟩

/-- C2 (code bug): on an absent state fetch the coordinator performs
exactly one unconditional re-login and one retried fetch (the call trace
below); but when the retry is also absent, the cycle raises TypeError
(`state["Device"] = device` with `state = None`, coordinator.py line 81),
which the `except RuntimeError` of `_async_update_data` does not normalize
to UpdateFailed; the previous snapshot is nevertheless kept. -/
theorem c2_double_absent_raises_typeError :
    processDevice c2Dev =
      (Except.error PyErr.typeError,
        [ApiCall.fetchCall, ApiCall.loginCall, ApiCall.fetchCall]) ∧
    updateDataRun (fun _ => apiCallRun [c2Dev]) =
      (Except.error (CycleErr.uncaught PyErr.typeError), 1) ∧
    publish [7] (updateDataRun (fun _ => apiCallRun [c2Dev])).1 = [7] :=
  ⟨rfl, rfl, rfl⟩

/-- C3 (counterexample): when both cycle attempts time out there are
exactly two attempts and the second TimeoutError escapes
`_async_update_data` as-is — it is not surfaced as UpdateFailed as the
claim states, because `except RuntimeError` does not catch TimeoutError. -/
theorem c3_counterexample_second_timeout :
    updateDataRun c3Env = (Except.error (CycleErr.uncaught PyErr.timeoutError), 2) ∧
    ¬ ∃ m, (updateDataRun c3Env).1 = Except.error (CycleErr.updateFailed m) := by
  refine ⟨rfl, ?_⟩
  rintro ⟨m, hm⟩
  have hval : (updateDataRun c3Env).1 =
      Except.error (CycleErr.uncaught PyErr.timeoutError) := rfl
  rw [hval] at hm
  simp at hm

/-- C3 (amended): a first timeout of the whole cycle causes exactly one
full retry (two attempts, never a third); a RuntimeError from either
attempt is normalized to UpdateFailed; but a second timeout propagates as
the raw TimeoutError, not as UpdateFailed. -/
theorem c3_amended_timeout_retry {σ : Type} (env : Nat → Except PyErr σ) :
    (updateDataRun env).2 ≤ 2 ∧
    (∀ d, env 0 = Except.ok d → updateDataRun env = (Except.ok d, 1)) ∧
    (env 0 = Except.error PyErr.timeoutError → (updateDataRun env).2 = 2) ∧
    (env 0 = Except.error PyErr.timeoutError →
      env 1 = Except.error PyErr.timeoutError →
      (updateDataRun env).1 = Except.error (CycleErr.uncaught PyErr.timeoutError)) ∧
    (∀ m, env 0 = Except.error (PyErr.runtimeError m) →
      updateDataRun env = (Except.error (CycleErr.updateFailed m), 1)) ∧
    (∀ m, env 0 = Except.error PyErr.timeoutError →
      env 1 = Except.error (PyErr.runtimeError m) →
      updateDataRun env = (Except.error (CycleErr.updateFailed m), 2)) := by
  refine ⟨?_, ?_, ?_, ?_, ?_, ?_⟩
  · rcases h0 : env 0 with e | d
    · cases e <;> simp [updateDataRun, h0]
    · simp [updateDataRun, h0]
  · intro d h0; simp [updateDataRun, h0]
  · intro h0; simp [updateDataRun, h0]
  · intro h0 h1; simp [updateDataRun, h0, h1]
  · intro m h0; simp [updateDataRun, h0]
  · intro m h0 h1; simp [updateDataRun, h0, h1]

/-- Witness for C3: a cycle whose first attempt succeeds makes exactly one
attempt and publishes its data. -/
theorem c3_amended_timeout_retry_witness :
    updateDataRun (fun _ => Except.ok (5 : Nat)) = (Except.ok 5, 1) :=
  (c3_amended_timeout_retry (fun _ => Except.ok (5 : Nat))).2.1 5 rfl

/-- C4: within one base token's lifetime (stored token `t`, all request
times before the stored expiry), N successive `calcToken` computations
leave base token and expiry unchanged and increase the counter by exactly
N (one per computation); a single fresh computation increments the counter
by exactly 1 and changes neither token nor expiry — the counter is
reassigned only by `storeToken` during login. -/
theorem c4_counter_monotone (E D : Block → Block) (resp : LoginResp)
    (nows : List Nat) (s : Sess) (t : List Char) (ht : s.token = some t)
    (hfresh : ∀ now ∈ nows, now < s.expiry) :
    ((calcSeq E D resp nows s).token = some t ∧
      (calcSeq E D resp nows s).expiry = s.expiry ∧
      (calcSeq E D resp nows s).counter = s.counter + (nows.length : Int)) ∧
    (∀ (now : Nat) (s9 : Sess) (t9 : List Char), s9.token = some t9 → now < s9.expiry →
      (calcToken now E D resp s9).1.counter = s9.counter + 1 ∧
      (calcToken now E D resp s9).1.token = some t9 ∧
      (calcToken now E D resp s9).1.expiry = s9.expiry) := by
  refine ⟨calcSeq_fresh E D resp nows s t ht hfresh, ?_⟩
  intro now s9 t9 h9 hn9
  rw [calcToken_fresh now E D resp s9 t9 h9 hn9]
  exact ⟨rfl, h9, rfl⟩

/-- Witness for C4: three computations at times 1, 2, 3 against expiry 100
raise the counter from 0 to 3. -/
theorem c4_counter_monotone_witness :
    (calcSeq id id ⟨0, none, none, none⟩ [1, 2, 3]
      (⟨some ['T'], 0, 100, none⟩ : Sess)).counter = 0 + (3 : Int) :=
  ((c4_counter_monotone id id ⟨0, none, none, none⟩ [1, 2, 3]
    ⟨some ['T'], 0, 100, none⟩ ['T'] rfl (by decide)).1).2.2

/-- C5: cipher round trip: for every printable-ASCII plaintext and every
keyed block-permutation pair `(E, D)` (the key, derived from the device
identifier and the fixed salt, only selects this pair), decrypting an
encryption restores the plaintext. -/
theorem c5_cipher_round_trip (E D : Block → Block) (hED : ∀ b, D (E b) = b)
    (hE : ∀ b, (∀ i, b i < 256) → ∀ i, E b i < 256)
    (s : List Char) (hs : ∀ c ∈ s, 32 ≤ c.toNat ∧ c.toNat < 127) :
    AESTool.decrypt D (AESTool.encrypt E s) = some s :=
  AESTool.decrypt_encrypt E D hED hE s (fun c hc => by have := hs c hc; omega)

/-- Witness for C5 at the identity block permutation and plaintext "Ok". -/
theorem c5_cipher_round_trip_witness :
    AESTool.decrypt id (AESTool.encrypt id ['O', 'k']) = some ['O', 'k'] :=
  c5_cipher_round_trip id id (fun _ => rfl) (fun _ hb i => hb i) ['O', 'k'] (by decide)

/-- C6 (counterexample): a login token decrypting to "a_b" has exactly the
two-part shape, yet `storeToken` raises ValueError (the counter part is
not an integer) — and with the base token already overwritten — refuting
that on the two-part shape the token and counter are stored, and that a
failing login stores no token. -/
theorem c6_counterexample_two_part_non_integer :
    storeToken 100 id (⟨none, 0, 0, none⟩ : Sess) (AESTool.encrypt id ['a', '_', 'b']) =
      (⟨some ['a'], 0, 0, none⟩, some PyErr.valueError) := by
  decide

/-- C6 (amended): the decrypted login token must split on the underscore
into exactly two parts whose second part parses as an integer; then base
token and counter are stored and the expiry is set to now + 3600 (one
hour).  A wrong part count — or an undecryptable token — raises ValueError
with the session unchanged; a two-part token whose counter part is not an
integer raises ValueError with the base token already overwritten. -/
theorem c6_amended_storeToken (now : Nat) (D : Block → Block) (s : Sess) (tok : List Char) :
    (AESTool.decrypt D tok = none → storeToken now D s tok = (s, some PyErr.valueError)) ∧
    (∀ plain, AESTool.decrypt D tok = some plain → (splitU plain).length ≠ 2 →
      storeToken now D s tok = (s, some PyErr.valueError)) ∧
    (∀ plain n, AESTool.decrypt D tok = some plain → (splitU plain).length = 2 →
      parseInt ((splitU plain).getD 1 []) = some n →
      storeToken now D s tok =
        ({ s with
            token := some ((splitU plain).getD 0 []),
            counter := n,
            expiry := now + 3600 }, none)) ∧
    (∀ plain, AESTool.decrypt D tok = some plain → (splitU plain).length = 2 →
      parseInt ((splitU plain).getD 1 []) = none →
      storeToken now D s tok =
        ({ s with token := some ((splitU plain).getD 0 []) }, some PyErr.valueError)) := by
  refine ⟨?_, ?_, ?_, ?_⟩
  · intro h; simp [storeToken, h]
  · intro plain hd hl; simp [storeToken, hd, hl]
  · intro plain n hd hl hp
    simp only [storeToken, hd]
    rw [if_pos hl, hp]
  · intro plain hd hl hp
    simp only [storeToken, hd]
    rw [if_pos hl, hp]

/-- Witness for C6: a token decrypting to "T_7" stores base token "T",
counter 7 and expiry now + 3600. -/
theorem c6_amended_storeToken_witness :
    storeToken 5 id (⟨none, 0, 0, none⟩ : Sess) (AESTool.encrypt id ['T', '_', '7']) =
      ({ (⟨none, 0, 0, none⟩ : Sess) with
          token := some ((splitU ['T', '_', '7']).getD 0 []),
          counter := 7,
          expiry := 5 + 3600 }, none) :=
  (c6_amended_storeToken 5 id ⟨none, 0, 0, none⟩ (AESTool.encrypt id ['T', '_', '7'])).2.2.1
    ['T', '_', '7'] 7
    (AESTool.decrypt_encrypt id id (fun _ => rfl) (fun _ hb i => hb i) ['T', '_', '7']
      (by decide))
    (by decide) (by decide)

/-- C7: both command operations merge the caller's dict with the fixed
defaults only for the enumerated fields the caller omitted (zone:
shu_set "0", fan_set "0", is_crono 0; controller: is_off 0, is_cool 1,
cool_mod 1, t_can 230); HTTP 200 with result code 0 returns success; any
other result code or HTTP status raises, carrying that code or status. -/
theorem c7_command_merge_and_result (pin : JVal) (zoneid : Int) (cmd : Dict)
    (tok : List Char) (status : Nat) (resCode : Option Int) :
    updateCUState (some tok) pin cmd status resCode =
      (mergeCUCmd pin cmd, updResult status resCode) ∧
    updateDeviceState (some tok) pin zoneid cmd status resCode =
      (mergeZoneCmd zoneid pin cmd, updResult status resCode) ∧
    mergeCUCmd pin cmd "is_off" = some ((cmd "is_off").getD (JVal.int 0)) ∧
    mergeCUCmd pin cmd "is_cool" = some ((cmd "is_cool").getD (JVal.int 1)) ∧
    mergeCUCmd pin cmd "cool_mod" = some ((cmd "cool_mod").getD (JVal.int 1)) ∧
    mergeCUCmd pin cmd "t_can" = some ((cmd "t_can").getD (JVal.int 230)) ∧
    mergeZoneCmd zoneid pin cmd "shu_set" = some ((cmd "shu_set").getD (JVal.str "0")) ∧
    mergeZoneCmd zoneid pin cmd "fan_set" = some ((cmd "fan_set").getD (JVal.str "0")) ∧
    mergeZoneCmd zoneid pin cmd "is_crono" = some ((cmd "is_crono").getD (JVal.int 0)) ∧
    updResult 200 (some 0) = Except.ok true ∧
    (resCode ≠ some 0 → updResult 200 resCode =
      Except.error (PyErr.runtimeError (RTErr.updateFailedCode resCode))) ∧
    (status ≠ 200 → updResult status resCode =
      Except.error (PyErr.runtimeError (RTErr.updateFailedStatus status))) := by
  refine ⟨rfl, rfl, mergeCUCmd_is_off pin cmd, mergeCUCmd_is_cool pin cmd,
    mergeCUCmd_cool_mod pin cmd, mergeCUCmd_t_can pin cmd,
    mergeZoneCmd_shu_set zoneid pin cmd, mergeZoneCmd_fan_set zoneid pin cmd,
    mergeZoneCmd_is_crono zoneid pin cmd, by simp [updResult], ?_, ?_⟩
  · intro h; simp [updResult, h]
  · intro h; simp [updResult, h]

/-- Witness for C7: an omitted `t_can` gets default 230; HTTP 503 raises
carrying the status. -/
theorem c7_command_merge_and_result_witness :
    mergeCUCmd (JVal.int 1) (fun _ => none) "t_can" = some (JVal.int 230) ∧
    updResult 503 none =
      Except.error (PyErr.runtimeError (RTErr.updateFailedStatus 503)) := by
  have h := c7_command_merge_and_result (JVal.int 1) 0 (fun _ => none) [] 503 none
  exact ⟨h.2.2.2.2.2.1, h.2.2.2.2.2.2.2.2.2.2.2 (by decide)⟩

/-- C8: `GetPlants` yields a non-empty plant list only on HTTP 200 with
result code 0, with the payload obtained by parsing the embedded
`ResDescr` string a second time; any other response outcome yields the
empty list; a failed token fetch raises the session-unavailable
RuntimeError. -/
theorem c8_GetPlants_outcomes (α : Type) (tok : Option (List Char)) (status : Nat)
    (resCode : Option Int) (resDescr : Option String)
    (loads : String → Option (List α)) :
    (∀ ps, GetPlants α tok status resCode resDescr loads = Except.ok ps → ps ≠ [] →
      tok ≠ none ∧ status = 200 ∧ resCode = some 0 ∧
      loads (resDescr.getD "[]") = some ps) ∧
    (tok ≠ none → ¬(status = 200 ∧ resCode = some 0) →
      GetPlants α tok status resCode resDescr loads = Except.ok []) ∧
    (tok = none →
      GetPlants α tok status resCode resDescr loads =
        Except.error (PyErr.runtimeError RTErr.tokenNotAvailable)) := by
  refine ⟨?_, ?_, ?_⟩
  · intro ps hok hne
    cases tok with
    | none => simp [GetPlants] at hok
    | some t =>
        by_cases hc : status = 200 ∧ resCode = some 0
        · refine ⟨by simp, hc.1, hc.2, ?_⟩
          simp only [GetPlants] at hok
          rw [if_pos hc] at hok
          cases hl : loads (resDescr.getD "[]") with
          | none => rw [hl] at hok; simp at hok
          | some ps2 =>
              rw [hl] at hok
              simp only [Except.ok.injEq] at hok
              exact congrArg some hok
        · simp only [GetPlants] at hok
          rw [if_neg hc] at hok
          simp only [Except.ok.injEq] at hok
          exact absurd hok.symm hne
  · intro ht hnc
    cases tok with
    | none => exact absurd rfl ht
    | some t =>
        simp only [GetPlants]
        rw [if_neg hnc]
  · intro h
    subst h
    rfl

/-- Witness for C8: with no token available, `GetPlants` raises the
session-unavailable RuntimeError. -/
theorem c8_GetPlants_outcomes_witness :
    GetPlants Nat none 200 (some 0) none (fun _ => some []) =
      Except.error (PyErr.runtimeError RTErr.tokenNotAvailable) :=
  (c8_GetPlants_outcomes Nat none 200 (some 0) none (fun _ => some [])).2.2 rfl

/-- C9 (counterexample): the schedule `c9Sched` drives two concurrent
`getDeviceState` operations to completion with transport log
[(B, 2), (A, 1)]: both token computations happen before either HTTP
exchange — the token is built *before* the lock is acquired — and
`GetPlants` never acquires the lock at all; the operation reaching the
transport second carries the earlier counter, refuting both that the lock
is acquired immediately before building the token and that the second
operation observes the counter state left by the first. -/
theorem c9_counterexample_interleaved_tokens :
    (runSched c9Sched initTwoFetch).log = [(true, 2), (false, 1)] ∧
    (runSched c9Sched initTwoFetch).progA = [] ∧
    (runSched c9Sched initTwoFetch).progB = [] ∧
    ¬ List.Sorted (fun p q => p.2 ≤ q.2) (runSched c9Sched initTwoFetch).log ∧
    Act.acquire ∉ GetPlantsProg := by
  decide

/-- C9 (amended): state fetch, command submission and login do serialize
their HTTP exchanges through the single lock — two concurrent
`getDeviceState` threads are never simultaneously inside their locked
sections — but the per-request token computation happens strictly before
the lock is acquired, and `GetPlants` performs its HTTP exchange without
acquiring the lock at all. -/
theorem c9_amended_lock_discipline (sched : List Bool) :
    Act.acquire ∉ GetPlantsProg ∧
    getDeviceStateProg = [Act.calcTok] ++ [Act.acquire, Act.http, Act.release] ∧
    ¬(inCS (runSched sched initTwoFetch).progA ∧
      inCS (runSched sched initTwoFetch).progB) := by
  refine ⟨by decide, rfl, fun hc => ?_⟩
  obtain ⟨hA2, hB2⟩ := hc
  obtain ⟨_, _, hLA, hLB⟩ := LockInv_runSched sched initTwoFetch LockInv_init
  have h1 := hLA hA2
  have h2 := hLB hB2
  rw [h1] at h2
  exact absurd h2 (by simp)

/-- Witness for C9 (amended) at the empty schedule. -/
theorem c9_amended_lock_discipline_witness : Act.acquire ∉ GetPlantsProg :=
  (c9_amended_lock_discipline []).1

/-- C10 (counterexample): `storeToken` on a token decrypting to "z_q"
fails with ValueError yet leaves the base token overwritten with "z": a
failing call is not atomic. -/
theorem c10_counterexample_partial_mutation :
    (storeToken 50 id (⟨some ['O'], 9, 99, some 1⟩ : Sess)
        (AESTool.encrypt id ['z', '_', 'q'])).2 = some PyErr.valueError ∧
    (storeToken 50 id (⟨some ['O'], 9, 99, some 1⟩ : Sess)
        (AESTool.encrypt id ['z', '_', 'q'])).1.token ≠ some ['O'] := by
  decide

/-- C10 (amended): when `storeToken` fails, counter, expiry and user id
are always unchanged, and the base token is unchanged *unless* the
decrypted token had exactly two parts with a non-integer counter part, in
which case the base token has already been overwritten with the first
part. -/
theorem c10_amended_failure_state (now : Nat) (D : Block → Block) (s : Sess)
    (tok : List Char) (e : PyErr) (s1 : Sess)
    (h : storeToken now D s tok = (s1, some e)) :
    s1.counter = s.counter ∧ s1.expiry = s.expiry ∧ s1.userId = s.userId ∧
    (s1.token = s.token ∨
      ∃ plain, AESTool.decrypt D tok = some plain ∧ (splitU plain).length = 2 ∧
        parseInt ((splitU plain).getD 1 []) = none ∧
        s1.token = some ((splitU plain).getD 0 [])) := by
  cases hd : AESTool.decrypt D tok with
  | none =>
      have heq : storeToken now D s tok = (s, some PyErr.valueError) := by
        simp [storeToken, hd]
      rw [heq] at h
      simp only [Prod.mk.injEq] at h
      obtain ⟨h1, _⟩ := h
      rw [← h1]
      exact ⟨rfl, rfl, rfl, Or.inl rfl⟩
  | some plain =>
      by_cases hl : (splitU plain).length = 2
      · cases hp : parseInt ((splitU plain).getD 1 []) with
        | some n =>
            have heq : storeToken now D s tok =
                ({ s with
                    token := some ((splitU plain).getD 0 []),
                    counter := n,
                    expiry := now + 3600 }, none) := by
              simp only [storeToken, hd]
              rw [if_pos hl, hp]
            rw [heq] at h
            simp only [Prod.mk.injEq] at h
            exact absurd h.2 (by simp)
        | none =>
            have heq : storeToken now D s tok =
                ({ s with token := some ((splitU plain).getD 0 []) },
                  some PyErr.valueError) := by
              simp only [storeToken, hd]
              rw [if_pos hl, hp]
            rw [heq] at h
            simp only [Prod.mk.injEq] at h
            obtain ⟨h1, _⟩ := h
            rw [← h1]
            exact ⟨rfl, rfl, rfl, Or.inr ⟨plain, rfl, hl, hp, rfl⟩⟩
      · have heq : storeToken now D s tok = (s, some PyErr.valueError) := by
          simp [storeToken, hd, hl]
        rw [heq] at h
        simp only [Prod.mk.injEq] at h
        obtain ⟨h1, _⟩ := h
        rw [← h1]
        exact ⟨rfl, rfl, rfl, Or.inl rfl⟩

/-- Witness for C10 (amended): an undecodable token (invalid base64 "!")
fails with the whole session unchanged. -/
theorem c10_amended_failure_state_witness :
    ((⟨none, 3, 8, none⟩ : Sess)).counter = 3 ∧
    ((⟨none, 3, 8, none⟩ : Sess)).expiry = 8 := by
  have h := c10_amended_failure_state 7 id ⟨none, 3, 8, none⟩ ['!'] PyErr.valueError
    ⟨none, 3, 8, none⟩ (by decide)
  exact ⟨h.1, h.2.1⟩
